import Mathlib

/-!
Verification of the contextual search pipeline (`mcp_search` and its helpers
`_check_memory`, `_store_memory`, `_sort_by_relevance` in
`backend/services/gemini.py`) as a shallow embedding in Lean 4.

External services (the text-generation service, the search-index service, and
the memory file on disk) are modelled by an `Env` record: each field captures
the outcome of the corresponding external interaction during one pipeline run
(`none` / `corrupt` meaning the interaction raised an exception in Python).
`mcp_search` then becomes a pure function from the environment, the query and
the optional user id to the response dictionary plus a record of the
observable side effects (index queries issued, synthesis call made, memory
file after the run).
-/

namespace Whispers

/-- Model of Python `needle in hay` (contiguous substring test) on char lists. -/
def containsSub (n : List Char) : List Char → Bool
  | [] => n.isPrefixOf []
  | c :: t => n.isPrefixOf (c :: t) || containsSub n t

/-- Python `needle in hay` for strings. -/
def pyIn (needle hay : String) : Bool :=
  containsSub needle.data hay.data

/-- Python `s.lower()` : lowercase each character. -/
def pyLower (s : String) : String :=
  ⟨s.data.map Char.toLower⟩

/-- Whitespace splitter on char lists (`cur` holds the current word reversed). -/
def wordsAux : List Char → List Char → List (List Char)
  | [], cur => if cur.isEmpty then [] else [cur.reverse]
  | c :: rest, cur =>
    if c.isWhitespace then
      if cur.isEmpty then wordsAux rest [] else cur.reverse :: wordsAux rest []
    else
      wordsAux rest (c :: cur)

/-- Python `s.split()` : split on whitespace runs, dropping empty pieces. -/
def pySplit (s : String) : List String :=
  (wordsAux s.data []).map (fun l => ⟨l⟩)

/-- Python `s.strip()` : drop leading and trailing whitespace. -/
def pyStrip (s : String) : String :=
  ⟨((s.data.dropWhile Char.isWhitespace).reverse.dropWhile Char.isWhitespace).reverse⟩

/-- Python `", ".join(l)`. -/
def joinComma : List String → String
  | [] => ""
  | [s] => s
  | s :: rest => s ++ ", " ++ joinComma rest

/-- One Algolia search hit, as assembled by stage 3 of `mcp_search`
(`objectID`, `title`, `summary`, `tags`, `timestamp`; a Python-falsy
`objectID` is modelled by the empty string). -/
structure Hit where
  objectID : String
  title : String
  summary : String
  tags : List String
  timestamp : String
deriving DecidableEq, Repr

/-- One entry of the memory log (`memory_store.json`, key `queries`). -/
structure MemoryEntry where
  query : String
  search_terms : List String
  summary : String
  timestamp : String
deriving DecidableEq, Repr

/-- State of the `memory_store.json` file: absent, unreadable (a read raises),
or a well-formed log. -/
inductive FileState where
  | absent : FileState
  | corrupt : FileState
  | good : List MemoryEntry → FileState
deriving DecidableEq, Repr

/-- Outcome of a successful stage-1 intent extraction (the parsed JSON fields
used afterwards: `is_search` compared to "yes", `search_terms`, `response`). -/
structure Stage1Result where
  is_search : Bool
  search_terms : List String
  stage1_response : String
deriving DecidableEq, Repr

/-- Behaviour of the external collaborators during one run. `stage1 = none`
and `synthesis = none` model the corresponding Gemini call (or its JSON
parse) raising; `algoliaResp term filter = none` models that term query
raising. -/
structure Env where
  stage1 : Option Stage1Result
  memoryFile : FileState
  algoliaResp : String → String → Option (List Hit)
  synthesis : Option String
  now : String

/-- The response dictionary returned by `mcp_search`. -/
structure Response where
  original_query : String
  search_terms : List String
  stage1_response : String
  algolia_hits : List Hit
  final_summary : String
  memory_used : Bool
  timestamp : String
deriving DecidableEq, Repr

/-- Observable side effects of one run: index queries actually issued, whether
the stage-4 synthesis call was made, whether `_store_memory` was invoked, and
the state of the memory file afterwards. -/
structure Effects where
  algolia_queries : List String
  synthesis_called : Bool
  store_called : Bool
  final_file : FileState
deriving Repr

/-- Stage-1 fallback (the `except` branch): `is_search = True`,
`search_terms = query.lower().split()[:3]`, templated acknowledgment. -/
def stage1Fallback (query : String) : Stage1Result where
  is_search := true
  search_terms := (pySplit (pyLower query)).take 3
  stage1_response := "I\x27ll search for entries related to your query: " ++ query

/-- Stage-1 result actually used by the pipeline. -/
def stage1Result (env : Env) (query : String) : Stage1Result :=
  match env.stage1 with
  | some r => r
  | none => stage1Fallback query

/-- Whether a stored memory entry matches the current query:
`any(term.lower() in query_lower for term in entry.get("search_terms", []))`. -/
def entryMatches (query_lower : String) (e : MemoryEntry) : Bool :=
  e.search_terms.any (fun term => pyIn (pyLower term) query_lower)

/-- The scan inside `_check_memory`: first entry (stored order) whose terms
match the lowercased query. -/
def findMatch (query_lower : String) : List MemoryEntry → Option MemoryEntry
  | [] => none
  | e :: rest =>
    if entryMatches query_lower e then some e else findMatch query_lower rest

/-- Embedding of `_check_memory`: absent file or read error yields no match. -/
def check_memory (file : FileState) (query : String) : Option MemoryEntry :=
  match file with
  | .absent => none
  | .corrupt => none
  | .good entries => findMatch (pyLower query) entries

/-- Python `l[-n:]` : the last `n` elements (all of them when `l` is shorter). -/
def lastN (n : Nat) (l : List α) : List α :=
  l.drop (l.length - n)

/-- Embedding of `_store_memory`: an absent file starts an empty log; a read
error is swallowed and the write is skipped; otherwise keep the last 49
entries, append the new one, and overwrite the file. -/
def store_memory (file : FileState) (e : MemoryEntry) : FileState :=
  match file with
  | .absent => .good (lastN 49 ([] : List MemoryEntry) ++ [e])
  | .corrupt => .corrupt
  | .good entries => .good (lastN 49 entries ++ [e])

/-- Iterated memory writes (one per completed non-memory-hit run). -/
def iterStore (file : FileState) (es : List MemoryEntry) : FileState :=
  es.foldl store_memory file

/-- Relevance score of one hit (`calculate_relevance` inside
`_sort_by_relevance`): per term, +3 for a title substring match, +2 for a
summary match, +1 if any tag matches, all case-insensitive and additive. -/
def calculate_relevance (search_terms : List String) (hit : Hit) : Nat :=
  search_terms.foldl
    (fun acc term =>
      let t := pyLower term
      let a1 := if pyIn t (pyLower hit.title) then 3 else 0
      let a2 := if pyIn t (pyLower hit.summary) then 2 else 0
      let a3 := if hit.tags.any (fun tag => pyIn t (pyLower tag)) then 1 else 0
      acc + a1 + a2 + a3)
    0

/-- The Python sort key `(calculate_relevance(x), x.get("timestamp", ""))`. -/
def sortKey (search_terms : List String) (hit : Hit) : Nat × String :=
  (calculate_relevance search_terms hit, hit.timestamp)

/-- Key comparison realised by `sorted(..., reverse=True)` on the key pairs:
`a` may precede `b` iff the key of `a` is lexicographically ≥ the key of `b`.
A stable sort with this relation preserves the input order of equal keys,
exactly as the stable Python `sorted` with `reverse=True` does. -/
def keyGE (a b : Nat × String) : Bool :=
  decide (b.1 < a.1 ∨ (b.1 = a.1 ∧ b.2 ≤ a.2))

/-- Embedding of `_sort_by_relevance`: stable sort, descending by
(relevance score, timestamp string). -/
def sort_by_relevance (hits : List Hit) (search_terms : List String) : List Hit :=
  hits.mergeSort (fun x y => keyGE (sortKey search_terms x) (sortKey search_terms y))

/-- One step of the stage-3 merge: append the hit and record its id unless the
id is Python-falsy or already seen. -/
def dedupInsert (st : List Hit × List String) (h : Hit) : List Hit × List String :=
  if h.objectID ≠ "" ∧ h.objectID ∉ st.2 then (st.1 ++ [h], st.2 ++ [h.objectID]) else st

/-- Folding the stage-3 merge over a stream of hits. -/
def collectHits (hits : List Hit) (st : List Hit × List String) : List Hit × List String :=
  hits.foldl dedupInsert st

/-- Stage-3 loop: one index query per term, in order, feeding the dedup merge;
a failing query aborts the whole step (first component `none`). The second
component lists the queries actually issued. -/
def searchLoop (f : String → Option (List Hit)) :
    List String → List Hit × List String → Option (List Hit) × List String
  | [], st => (some st.1, [])
  | t :: rest, st =>
    match f t with
    | none => (none, [t])
    | some hits =>
      let st' := collectHits hits st
      let r := searchLoop f rest st'
      (r.1, t :: r.2)

/-- The Algolia filter string: `f"user_id:{user_id}" if user_id else ""`. -/
def filterStr (user_id : Option String) : String :=
  match user_id with
  | none => ""
  | some u => if u = "" then "" else "user_id:" ++ u

/-- Stage-4 fallback summary (the `except` branch of stage 4). -/
def fallbackSummary (search_terms : List String) (hits : List Hit) : String :=
  if hits ≠ [] then
    "Found " ++ toString hits.length ++ " relevant entries for your query about "
      ++ joinComma search_terms ++ "."
  else
    "No relevant entries found for your query."

/-- Embedding of `mcp_search`: the five-stage pipeline, returning the response
dictionary and the observable effects of the run. -/
def mcp_search (env : Env) (query : String) (user_id : Option String) :
    Response × Effects :=
  let s1 := stage1Result env query
  let base : Response :=
    { original_query := query
      search_terms := s1.search_terms
      stage1_response := s1.stage1_response
      algolia_hits := []
      final_summary := ""
      memory_used := false
      timestamp := env.now }
  match check_memory env.memoryFile query with
  | some entry =>
    ({ base with memory_used := true, final_summary := entry.summary },
     { algolia_queries := []
       synthesis_called := false
       store_called := false
       final_file := env.memoryFile })
  | none =>
    if s1.is_search = false then
      ({ base with final_summary := s1.stage1_response },
       { algolia_queries := []
         synthesis_called := false
         store_called := false
         final_file := env.memoryFile })
    else
      let r := searchLoop (fun t => env.algoliaResp t (filterStr user_id)) s1.search_terms ([], [])
      let hits : List Hit :=
        match r.1 with
        | some merged => sort_by_relevance merged s1.search_terms
        | none => []
      let final : String :=
        match env.synthesis with
        | some text => pyStrip text
        | none => fallbackSummary s1.search_terms hits
      let entry : MemoryEntry :=
        { query := query, search_terms := s1.search_terms, summary := final, timestamp := env.now }
      ({ base with algolia_hits := hits, final_summary := final },
       { algolia_queries := r.2
         synthesis_called := true
         store_called := true
         final_file := store_memory env.memoryFile entry })

/-- The input stream seen by the stage-3 merge when every term query succeeds:
the per-term hit lists, concatenated in term order. -/
def termInputs (f : String → Option (List Hit)) (terms : List String) : List Hit :=
  (terms.map (fun t => (f t).getD [])).flatten

/-! Concrete fixtures used by witnesses and counterexamples. -/

/-- Example hit: matched by the term "sleep" in its title. -/
def hitA : Hit :=
  { objectID := "1", title := "Sleep patterns", summary := "", tags := [], timestamp := "2024" }

/-- Example hit: matched by the term "work" in its summary. -/
def hitB : Hit :=
  { objectID := "2", title := "", summary := "hard work today", tags := [], timestamp := "2023" }

/-- Example per-term index behaviour with an overlapping result. -/
def fEx : String → Option (List Hit) :=
  fun t => if t = "sleep" then some [hitA] else some [hitA, hitB]

/-- Example memory entry whose term "week" matches the example query. -/
def entryWeek : MemoryEntry :=
  { query := "old query", search_terms := ["week"], summary := "cached weekly summary", timestamp := "t0" }

/-- Memory entry with an empty cached summary (for the C4 counterexample). -/
def entryEmptySummary : MemoryEntry :=
  { query := "old query", search_terms := ["week"], summary := "", timestamp := "t0" }

/-- Memory entry whose stored terms include the empty string. -/
def entryEmptyTerm : MemoryEntry :=
  { query := "b", search_terms := [""], summary := "s2", timestamp := "t2" }

/-- Memory entry stored before `entryEmptyTerm`, matching queries containing "abc". -/
def entryAbc : MemoryEntry :=
  { query := "a", search_terms := ["abc"], summary := "s1", timestamp := "t1" }

/-- Generic memory entry used for the log-bound claims. -/
def entryGen : MemoryEntry :=
  { query := "q", search_terms := ["a"], summary := "s", timestamp := "t" }

/-- Environment for the C1 witness: one matching memory entry, everything else irrelevant. -/
def envC1w : Env :=
  { stage1 := none
    memoryFile := .good [entryWeek]
    algoliaResp := fun _ _ => none
    synthesis := none
    now := "T" }

/-- Environment for the C2 witness run. -/
def envC2w : Env :=
  { stage1 := some { is_search := true, search_terms := ["sleep", "work"], stage1_response := "ack" }
    memoryFile := .absent
    algoliaResp := fun t _ => fEx t
    synthesis := none
    now := "T" }

/-- Environment for the C4 counterexample: generation service fails at every
stage, but the memory log holds a matching entry with an empty cached summary. -/
def envC4cex : Env :=
  { stage1 := none
    memoryFile := .good [entryEmptySummary]
    algoliaResp := fun _ _ => none
    synthesis := none
    now := "T" }

/-- Environment for the C4 witness: every external service fails, memory absent. -/
def envC4w : Env :=
  { stage1 := none
    memoryFile := .absent
    algoliaResp := fun _ _ => none
    synthesis := none
    now := "T" }

/-- Environment for the C5 witness: a term query fails. -/
def envC5w : Env :=
  { stage1 := some { is_search := true, search_terms := ["sleep", "work"], stage1_response := "ack" }
    memoryFile := .absent
    algoliaResp := fun t _ => if t = "work" then none else some [hitA]
    synthesis := none
    now := "T" }

/-- Environment for the C7 witness: stage 1 fails. -/
def envC7w : Env :=
  { stage1 := none
    memoryFile := .absent
    algoliaResp := fun _ _ => some []
    synthesis := some "synth"
    now := "T" }

/-- Environment for the C8 counterexample: empty extracted terms but a
SUCCESSFUL synthesis call. -/
def envC8cex : Env :=
  { stage1 := some { is_search := true, search_terms := [], stage1_response := "ok" }
    memoryFile := .absent
    algoliaResp := fun _ _ => some [hitA]
    synthesis := some "Here is a synthesized answer."
    now := "T" }

/-- Environment for the C8 witness: empty extracted terms and the synthesis
call fails. -/
def envC8w : Env :=
  { stage1 := some { is_search := true, search_terms := [], stage1_response := "ok" }
    memoryFile := .absent
    algoliaResp := fun _ _ => some [hitA]
    synthesis := none
    now := "T" }

/-- Environment for the C9 counterexample: the intent extractor says no search
is needed, but the memory log matches the query. -/
def envC9cex : Env :=
  { stage1 := some { is_search := false, search_terms := ["x"], stage1_response := "ack" }
    memoryFile := .good [{ query := "old", search_terms := ["q"], summary := "cached", timestamp := "t" }]
    algoliaResp := fun _ _ => none
    synthesis := none
    now := "T" }

/-- Environment for the C9 witness: no search needed and no memory match. -/
def envC9w : Env :=
  { stage1 := some { is_search := false, search_terms := ["x"], stage1_response := "ack" }
    memoryFile := .absent
    algoliaResp := fun _ _ => none
    synthesis := none
    now := "T" }

/-- Environment for the C10 counterexample: an empty-string term entry stored
AFTER another entry that also matches the query. -/
def envC10cex : Env :=
  { stage1 := some { is_search := true, search_terms := ["y"], stage1_response := "r" }
    memoryFile := .good [entryAbc, entryEmptyTerm]
    algoliaResp := fun _ _ => none
    synthesis := none
    now := "T" }

/-- Environment for the C10 witness: the empty-string term entry is the only
entry in the log. -/
def envC10w : Env :=
  { stage1 := some { is_search := true, search_terms := ["y"], stage1_response := "r" }
    memoryFile := .good [entryEmptyTerm]
    algoliaResp := fun _ _ => none
    synthesis := none
    now := "T" }

/-! Helper lemmas. -/

theorem containsSub_nil (l : List Char) : containsSub [] l = true := by
  cases l <;> simp [containsSub]

theorem pyIn_empty_left (s : String) : pyIn "" s = true := by
  simpa [pyIn] using containsSub_nil s.data

theorem entryMatches_of_empty_mem (q' : String) (e : MemoryEntry)
    (h : "" ∈ e.search_terms) : entryMatches q' e = true := by
  have hlow : pyLower "" = "" := by decide
  simp only [entryMatches, List.any_eq_true]
  exact ⟨"", h, by rw [hlow]; exact pyIn_empty_left q'⟩

theorem findMatch_append_first (q' : String) (e : MemoryEntry) (s : List MemoryEntry) :
    ∀ p : List MemoryEntry, entryMatches q' e = true →
      (∀ x ∈ p, entryMatches q' x = false) →
      findMatch q' (p ++ e :: s) = some e := by
  intro p
  induction p with
  | nil => intro he _; simp [findMatch, he]
  | cons a rest ih =>
    intro he hall
    have ha : entryMatches q' a = false := hall a (List.mem_cons_self a rest)
    simp only [List.cons_append, findMatch, ha]
    simp only [Bool.false_eq_true, if_false]
    exact ih he (fun x hx => hall x (List.mem_cons_of_mem a hx))

theorem findMatch_isSome_of_mem (q' : String) :
    ∀ (l : List MemoryEntry) (e : MemoryEntry), e ∈ l → entryMatches q' e = true →
      ∃ e2, findMatch q' l = some e2 := by
  intro l
  induction l with
  | nil => intro e he _; cases he
  | cons a rest ih =>
    intro e he hm
    by_cases ha : entryMatches q' a = true
    · exact ⟨a, by simp [findMatch, ha]⟩
    · rcases List.mem_cons.mp he with rfl | he2
      · exact absurd hm ha
      · rcases ih e he2 hm with ⟨e2, h2⟩
        exact ⟨e2, by simp [findMatch, ha, h2]⟩

theorem string_append_ne_empty (s t : String) (h : s.length ≠ 0) : s ++ t ≠ "" := by
  intro hc
  have : (s ++ t).length = 0 := by rw [hc]; rfl
  rw [String.length_append] at this
  omega

theorem fallbackSummary_ne_empty (terms : List String) (hits : List Hit) :
    fallbackSummary terms hits ≠ "" := by
  unfold fallbackSummary
  by_cases h : hits = []
  · simp only [h, ne_eq, not_true_eq_false, if_false]
    decide
  · simp only [h, ne_eq, not_false_eq_true, if_true]
    refine string_append_ne_empty _ "." ?_
    simp only [String.length_append]
    have h6 : "Found ".length = 6 := by decide
    omega

/-! Run lemmas: the three branches of `mcp_search`, as equations. -/

theorem mcp_search_memory_hit (env : Env) (q : String) (uid : Option String)
    (e : MemoryEntry) (h : check_memory env.memoryFile q = some e) :
    mcp_search env q uid =
      ({ original_query := q
         search_terms := (stage1Result env q).search_terms
         stage1_response := (stage1Result env q).stage1_response
         algolia_hits := []
         final_summary := e.summary
         memory_used := true
         timestamp := env.now },
       { algolia_queries := []
         synthesis_called := false
         store_called := false
         final_file := env.memoryFile }) := by
  simp [mcp_search, h]

theorem mcp_search_no_search (env : Env) (q : String) (uid : Option String)
    (h : check_memory env.memoryFile q = none)
    (hns : (stage1Result env q).is_search = false) :
    mcp_search env q uid =
      ({ original_query := q
         search_terms := (stage1Result env q).search_terms
         stage1_response := (stage1Result env q).stage1_response
         algolia_hits := []
         final_summary := (stage1Result env q).stage1_response
         memory_used := false
         timestamp := env.now },
       { algolia_queries := []
         synthesis_called := false
         store_called := false
         final_file := env.memoryFile }) := by
  simp [mcp_search, h, hns]

theorem mcp_search_search_branch (env : Env) (q : String) (uid : Option String)
    (h : check_memory env.memoryFile q = none)
    (hs : (stage1Result env q).is_search = true) :
    mcp_search env q uid =
      (let s1 := stage1Result env q
       let r := searchLoop (fun t => env.algoliaResp t (filterStr uid)) s1.search_terms ([], [])
       let hits : List Hit :=
         match r.1 with
         | some merged => sort_by_relevance merged s1.search_terms
         | none => []
       let final : String :=
         match env.synthesis with
         | some text => pyStrip text
         | none => fallbackSummary s1.search_terms hits
       ({ original_query := q
          search_terms := s1.search_terms
          stage1_response := s1.stage1_response
          algolia_hits := hits
          final_summary := final
          memory_used := false
          timestamp := env.now },
        { algolia_queries := r.2
          synthesis_called := true
          store_called := true
          final_file := store_memory env.memoryFile
            { query := q, search_terms := s1.search_terms, summary := final, timestamp := env.now } })) := by
  simp [mcp_search, h, hs]

/-! Claim C1: memory short-circuit. -/

/-- Claim C1: whenever the memory log is readable and a stored search
term of some entry (lowercased) is a substring of the lowercased query, `mcp_search`
returns `memory_used = true`, empty `algolia_hits`, and the summary of the
first matching entry in stored order, issuing no index query, no synthesis
call and no memory write. -/
theorem memory_short_circuit (env : Env) (q : String) (uid : Option String)
    (p s : List MemoryEntry) (e : MemoryEntry)
    (hfile : env.memoryFile = .good (p ++ e :: s))
    (hmatch : entryMatches (pyLower q) e = true)
    (hfirst : ∀ x ∈ p, entryMatches (pyLower q) x = false) :
    (mcp_search env q uid).1.memory_used = true
    ∧ (mcp_search env q uid).1.algolia_hits = []
    ∧ (mcp_search env q uid).1.final_summary = e.summary
    ∧ (mcp_search env q uid).2.algolia_queries = []
    ∧ (mcp_search env q uid).2.synthesis_called = false
    ∧ (mcp_search env q uid).2.store_called = false
    ∧ (mcp_search env q uid).2.final_file = env.memoryFile := by
  have hcm : check_memory env.memoryFile q = some e := by
    rw [hfile]
    simp only [check_memory]
    exact findMatch_append_first (pyLower q) e s p hmatch hfirst
  rw [mcp_search_memory_hit env q uid e hcm]
  exact ⟨rfl, rfl, rfl, rfl, rfl, rfl, rfl⟩

/-- Witness for C1 at a concrete memory log and query. -/
theorem memory_short_circuit_witness :
    (mcp_search envC1w "tell me about my week" (some "u1")).1.memory_used = true
    ∧ (mcp_search envC1w "tell me about my week" (some "u1")).1.algolia_hits = []
    ∧ (mcp_search envC1w "tell me about my week" (some "u1")).1.final_summary = entryWeek.summary
    ∧ (mcp_search envC1w "tell me about my week" (some "u1")).2.algolia_queries = []
    ∧ (mcp_search envC1w "tell me about my week" (some "u1")).2.synthesis_called = false
    ∧ (mcp_search envC1w "tell me about my week" (some "u1")).2.store_called = false
    ∧ (mcp_search envC1w "tell me about my week" (some "u1")).2.final_file = envC1w.memoryFile :=
  memory_short_circuit envC1w "tell me about my week" (some "u1") [] [] entryWeek rfl
    (by decide) (by intro x hx; cases hx)

/-! Claim C5: any term-query failure aborts the whole search step. -/

theorem searchLoop_fail_of_mem (f : String → Option (List Hit)) :
    ∀ (terms : List String) (st : List Hit × List String) (t : String),
      t ∈ terms → f t = none → (searchLoop f terms st).1 = none := by
  intro terms
  induction terms with
  | nil => intro st t ht; cases ht
  | cons a rest ih =>
    intro st t ht hf
    rcases List.mem_cons.mp ht with rfl | ht2
    · simp [searchLoop, hf]
    · cases hfa : f a with
      | none => simp [searchLoop, hfa]
      | some hits =>
        simp only [searchLoop, hfa]
        exact ih _ t ht2 hf

/-- Claim C5: if the index query of some term fails during stage 3, the
whole search step is aborted and `algolia_hits` in the response is empty: hits
collected from earlier terms are discarded. -/
theorem search_abort_on_failure (env : Env) (q : String) (uid : Option String)
    (hmem : check_memory env.memoryFile q = none)
    (hsearch : (stage1Result env q).is_search = true)
    (t : String) (ht : t ∈ (stage1Result env q).search_terms)
    (hfail : env.algoliaResp t (filterStr uid) = none) :
    (mcp_search env q uid).1.algolia_hits = [] := by
  rw [mcp_search_search_branch env q uid hmem hsearch]
  have hnone : (searchLoop (fun t2 => env.algoliaResp t2 (filterStr uid))
      (stage1Result env q).search_terms ([], [])).1 = none :=
    searchLoop_fail_of_mem _ _ _ t ht hfail
  simp only [hnone]

/-- Witness for C5: the second of two terms fails; earlier hits are dropped. -/
theorem search_abort_on_failure_witness :
    (mcp_search envC5w "q0" none).1.algolia_hits = [] :=
  search_abort_on_failure envC5w "q0" none rfl rfl "work" (by decide) (by decide)

/-! Claim C7: stage-1 failure is fully recovered. -/

/-- Claim C7: when stage 1 fails, the caller sees no error: the run proceeds
with `is_search = true`, `search_terms` equal to the first three
whitespace-separated lowercased tokens of the raw query, and a templated
acknowledgment embedding the raw query. -/
theorem stage1_fallback_recovery (env : Env) (q : String) (uid : Option String)
    (h : env.stage1 = none) :
    (mcp_search env q uid).1.search_terms = (pySplit (pyLower q)).take 3
    ∧ (mcp_search env q uid).1.stage1_response
        = "I\x27ll search for entries related to your query: " ++ q
    ∧ (stage1Result env q).is_search = true := by
  have hs1 : stage1Result env q = stage1Fallback q := by simp [stage1Result, h]
  have hsearch : (stage1Result env q).is_search = true := by rw [hs1]; rfl
  have key : (mcp_search env q uid).1.search_terms = (stage1Result env q).search_terms
      ∧ (mcp_search env q uid).1.stage1_response = (stage1Result env q).stage1_response := by
    cases hcm : check_memory env.memoryFile q with
    | some e => rw [mcp_search_memory_hit env q uid e hcm]; exact ⟨rfl, rfl⟩
    | none => rw [mcp_search_search_branch env q uid hcm hsearch]; exact ⟨rfl, rfl⟩
  refine ⟨?_, ?_, hsearch⟩
  · rw [key.1, hs1]; rfl
  · rw [key.2, hs1]; rfl

/-- Witness for C7 at a concrete query. -/
theorem stage1_fallback_recovery_witness :
    (mcp_search envC7w "Tell ME about   my week" none).1.search_terms
      = (pySplit (pyLower "Tell ME about   my week")).take 3
    ∧ (mcp_search envC7w "Tell ME about   my week" none).1.stage1_response
        = "I\x27ll search for entries related to your query: " ++ "Tell ME about   my week"
    ∧ (stage1Result envC7w "Tell ME about   my week").is_search = true :=
  stage1_fallback_recovery envC7w "Tell ME about   my week" none rfl

/-! Claim C9: the "no search needed" exit (corrected: the memory check runs
first and a memory hit takes precedence). -/

/-- Counterexample to C9 as stated: the intent extractor returns
`is_search = false` but a stored entry matches the query, so the run returns
the cached summary with `memory_used = true` instead of the stage-1
acknowledgment with `memory_used = false`. -/
theorem no_search_exit_cex :
    (stage1Result envC9cex "q").is_search = false
    ∧ (mcp_search envC9cex "q" none).1.memory_used = true
    ∧ (mcp_search envC9cex "q" none).1.final_summary = "cached"
    ∧ (mcp_search envC9cex "q" none).1.final_summary
        ≠ (stage1Result envC9cex "q").stage1_response := by
  decide

/-- Claim C9 (amended): when the intent extractor returns `is_search = false`
AND the stage-2 memory check finds no match, the pipeline exits early with
`final_summary` equal to the stage-1 acknowledgment and `memory_used = false`,
issuing no index query, no synthesis call and no memory write. -/
theorem no_search_exit_amended (env : Env) (q : String) (uid : Option String)
    (hns : (stage1Result env q).is_search = false)
    (hmem : check_memory env.memoryFile q = none) :
    (mcp_search env q uid).1.final_summary = (stage1Result env q).stage1_response
    ∧ (mcp_search env q uid).1.memory_used = false
    ∧ (mcp_search env q uid).2.algolia_queries = []
    ∧ (mcp_search env q uid).2.synthesis_called = false
    ∧ (mcp_search env q uid).2.store_called = false := by
  rw [mcp_search_no_search env q uid hmem hns]
  exact ⟨rfl, rfl, rfl, rfl, rfl⟩

/-- Witness for the amended C9. -/
theorem no_search_exit_amended_witness :
    (mcp_search envC9w "q" none).1.final_summary = (stage1Result envC9w "q").stage1_response
    ∧ (mcp_search envC9w "q" none).1.memory_used = false
    ∧ (mcp_search envC9w "q" none).2.algolia_queries = []
    ∧ (mcp_search envC9w "q" none).2.synthesis_called = false
    ∧ (mcp_search envC9w "q" none).2.store_called = false :=
  no_search_exit_amended envC9w "q" none rfl rfl

/-! Claim C10: an empty stored search term makes every query a memory hit
(corrected: the returned summary is that of the first matching entry). -/

/-- Counterexample to C10 as stated: the log holds an earlier entry matching
the query, so the short-circuit returns the summary of the earlier entry, not the
summary of the entry whose terms include the empty string. -/
theorem empty_term_memory_cex :
    "" ∈ entryEmptyTerm.search_terms
    ∧ (mcp_search envC10cex "abc xyz" none).1.memory_used = true
    ∧ (mcp_search envC10cex "abc xyz" none).1.final_summary = "s1"
    ∧ (mcp_search envC10cex "abc xyz" none).1.final_summary ≠ entryEmptyTerm.summary := by
  decide

/-- Claim C10 (amended): if the readable log holds an entry whose stored
terms include the empty string, every run short-circuits: `memory_used =
true`, no index query, no synthesis call, and `final_summary` is the cached
summary of the first matching entry — which is that entry whenever no
earlier entry matches. -/
theorem empty_term_memory_amended (env : Env) (q : String) (uid : Option String)
    (p s : List MemoryEntry) (e : MemoryEntry)
    (hfile : env.memoryFile = .good (p ++ e :: s))
    (hempty : "" ∈ e.search_terms) :
    (mcp_search env q uid).1.memory_used = true
    ∧ (mcp_search env q uid).2.algolia_queries = []
    ∧ (mcp_search env q uid).2.synthesis_called = false
    ∧ ∃ e2, findMatch (pyLower q) (p ++ e :: s) = some e2
        ∧ (mcp_search env q uid).1.final_summary = e2.summary
        ∧ ((∀ x ∈ p, entryMatches (pyLower q) x = false) → e2 = e) := by
  have hm : entryMatches (pyLower q) e = true := entryMatches_of_empty_mem _ e hempty
  rcases findMatch_isSome_of_mem (pyLower q) (p ++ e :: s) e (by simp) hm with ⟨e2, he2⟩
  have hcm : check_memory env.memoryFile q = some e2 := by
    rw [hfile]; simpa [check_memory] using he2
  rw [mcp_search_memory_hit env q uid e2 hcm]
  refine ⟨rfl, rfl, rfl, e2, he2, rfl, ?_⟩
  intro hfirst
  have hfst : findMatch (pyLower q) (p ++ e :: s) = some e :=
    findMatch_append_first (pyLower q) e s p hm hfirst
  rw [hfst] at he2
  exact (Option.some.inj he2).symm

/-- Witness for the amended C10: a single-entry log with an empty stored term
short-circuits an arbitrary query. -/
theorem empty_term_memory_amended_witness :
    (mcp_search envC10w "anything at all" none).1.memory_used = true
    ∧ (mcp_search envC10w "anything at all" none).2.algolia_queries = []
    ∧ (mcp_search envC10w "anything at all" none).2.synthesis_called = false
    ∧ ∃ e2, findMatch (pyLower "anything at all") ([] ++ entryEmptyTerm :: []) = some e2
        ∧ (mcp_search envC10w "anything at all" none).1.final_summary = e2.summary
        ∧ ((∀ x ∈ ([] : List MemoryEntry), entryMatches (pyLower "anything at all") x = false)
            → e2 = entryEmptyTerm) :=
  empty_term_memory_amended envC10w "anything at all" none [] [] entryEmptyTerm rfl (by decide)

/-! Claim C4: the orchestrator never fails outright (corrected: a memory hit
on an entry with an empty cached summary yields an empty `final_summary`). -/

/-- Counterexample to C4 as stated: with the generation service failing at
every stage, a memory hit on a stored entry whose cached summary is the empty
string makes `mcp_search` return an empty `final_summary`. -/
theorem orchestrator_total_cex :
    envC4cex.stage1 = none
    ∧ envC4cex.synthesis = none
    ∧ (mcp_search envC4cex "tell me about my week" (some "u1")).1.final_summary = "" := by
  refine ⟨rfl, rfl, ?_⟩
  decide

/-- Claim C4 (amended): `mcp_search` is total — it always returns a response
echoing the query — and when the generation service fails at both stage 1 and
stage 4, `final_summary` is non-empty provided the memory check does not
return an entry with an empty cached summary. -/
theorem orchestrator_total_amended (env : Env) (q : String) (uid : Option String)
    (h1 : env.stage1 = none) (h2 : env.synthesis = none)
    (h3 : ∀ e, check_memory env.memoryFile q = some e → e.summary ≠ "") :
    (mcp_search env q uid).1.original_query = q
    ∧ (mcp_search env q uid).1.final_summary ≠ "" := by
  have hsearch : (stage1Result env q).is_search = true := by
    simp [stage1Result, h1, stage1Fallback]
  cases hcm : check_memory env.memoryFile q with
  | some e =>
    rw [mcp_search_memory_hit env q uid e hcm]
    exact ⟨rfl, h3 e hcm⟩
  | none =>
    rw [mcp_search_search_branch env q uid hcm hsearch]
    refine ⟨rfl, ?_⟩
    simp only [h2]
    exact fallbackSummary_ne_empty _ _

/-- Witness for the amended C4: every external service fails, memory absent;
the example query from the spec still yields a non-empty summary. -/
theorem orchestrator_total_amended_witness :
    (mcp_search envC4w "tell me about my week" (some "u1")).1.original_query
      = "tell me about my week"
    ∧ (mcp_search envC4w "tell me about my week" (some "u1")).1.final_summary ≠ "" :=
  orchestrator_total_amended envC4w "tell me about my week" (some "u1") rfl rfl
    (by intro e h; simp [envC4w, check_memory] at h)

/-! Claim C8: empty `search_terms` at stage 3 (corrected: the templated
fallback appears only when the synthesis call fails). -/

/-- Counterexample to C8 as stated: with empty extracted terms the executor
issues no query and returns no hits, but the synthesis call still runs; when
it succeeds, `final_summary` is the synthesized text, not the templated
fallback string. -/
theorem empty_terms_cex :
    (stage1Result envC8cex "q").search_terms = []
    ∧ (mcp_search envC8cex "q" none).2.algolia_queries = []
    ∧ (mcp_search envC8cex "q" none).1.algolia_hits = []
    ∧ (mcp_search envC8cex "q" none).2.synthesis_called = true
    ∧ (mcp_search envC8cex "q" none).1.final_summary
        ≠ "No relevant entries found for your query." := by
  have hmem : check_memory envC8cex.memoryFile "q" = none := rfl
  have hs : (stage1Result envC8cex "q").is_search = true := rfl
  rw [mcp_search_search_branch envC8cex "q" none hmem hs]
  refine ⟨rfl, rfl, ?_, rfl, ?_⟩
  · simp [searchLoop, sort_by_relevance]
  · decide

/-- Claim C8 (amended): a run reaching stage 3 with empty `search_terms`
issues no index query and produces an empty hit list; and when the synthesis
call fails, `final_summary` is the templated fallback
"No relevant entries found for your query.". -/
theorem empty_terms_amended (env : Env) (q : String) (uid : Option String)
    (hmem : check_memory env.memoryFile q = none)
    (hsearch : (stage1Result env q).is_search = true)
    (hterms : (stage1Result env q).search_terms = []) :
    (mcp_search env q uid).2.algolia_queries = []
    ∧ (mcp_search env q uid).1.algolia_hits = []
    ∧ (env.synthesis = none →
        (mcp_search env q uid).1.final_summary
          = "No relevant entries found for your query.") := by
  rw [mcp_search_search_branch env q uid hmem hsearch]
  simp only [hterms]
  refine ⟨rfl, ?_, ?_⟩
  · simp [searchLoop, sort_by_relevance]
  · intro hsyn
    simp [hsyn, searchLoop, sort_by_relevance, fallbackSummary]

/-- Witness for the amended C8. -/
theorem empty_terms_amended_witness :
    (mcp_search envC8w "q" none).2.algolia_queries = []
    ∧ (mcp_search envC8w "q" none).1.algolia_hits = []
    ∧ (envC8w.synthesis = none →
        (mcp_search envC8w "q" none).1.final_summary
          = "No relevant entries found for your query.") :=
  empty_terms_amended envC8w "q" none rfl rfl rfl

/-! Claim C6: the memory-log bound (corrected: a corrupt file skips the
write instead of being treated as an empty log). -/

theorem lastN_of_length_le (n : Nat) (l : List α) (h : l.length ≤ n) : lastN n l = l := by
  simp [lastN, Nat.sub_eq_zero_of_le h]

theorem lastN_length_le (n : Nat) (l : List α) : (lastN n l).length ≤ n := by
  simp only [lastN, List.length_drop]
  omega

theorem lastN_append_of_le (n : Nat) (a b : List α) (h : n ≤ b.length) :
    lastN n (a ++ b) = lastN n b := by
  unfold lastN
  have hlen : (a ++ b).length - n = a.length + (b.length - n) := by
    simp only [List.length_append]
    omega
  rw [hlen, List.drop_append]

theorem lastN_lastN_append (x es : List α) (h : 1 ≤ es.length) :
    lastN 50 (lastN 49 x ++ es) = lastN 50 (x ++ es) := by
  by_cases hx : x.length ≤ 49
  · rw [lastN_of_length_le 49 x hx]
  · push_neg at hx
    have h49 : (lastN 49 x).length = 49 := by
      simp only [lastN, List.length_drop]
      omega
    have hx' : x = x.take (x.length - 49) ++ lastN 49 x := (List.take_append_drop _ x).symm
    conv_rhs => rw [hx']
    rw [List.append_assoc]
    unfold lastN
    have hL : (x.drop (x.length - 49) ++ es).length - 50 = (49 + es.length) - 50 := by
      simp only [List.length_append]
      have : (x.drop (x.length - 49)).length = 49 := h49
      omega
    have hR : (x.take (x.length - 49) ++ (x.drop (x.length - 49) ++ es)).length - 50
        = (x.take (x.length - 49)).length + ((49 + es.length) - 50) := by
      simp only [List.length_append, List.length_take, List.length_drop]
      omega
    rw [hL, hR, List.drop_append]

theorem foldGood_closed :
    ∀ (es : List MemoryEntry) (l : List MemoryEntry), es ≠ [] →
      es.foldl (fun acc e => lastN 49 acc ++ [e]) l = lastN 50 (lastN 49 l ++ es) := by
  intro es
  induction es with
  | nil => intro l h; exact absurd rfl h
  | cons e es ih =>
    intro l _
    by_cases hes : es = []
    · subst hes
      simp only [List.foldl_cons, List.foldl_nil]
      have hlen : (lastN 49 l ++ [e]).length ≤ 50 := by
        have := lastN_length_le 49 l
        simp only [List.length_append, List.length_cons, List.length_nil]
        omega
      exact (lastN_of_length_le 50 _ hlen).symm
    · simp only [List.foldl_cons]
      rw [ih (lastN 49 l ++ [e]) hes]
      rw [lastN_lastN_append (lastN 49 l ++ [e]) es
        (by cases es with | nil => exact absurd rfl hes | cons a t => simp)]
      rw [List.append_assoc]
      rfl

theorem iterStore_good (es : List MemoryEntry) :
    ∀ l : List MemoryEntry,
      iterStore (.good l) es = .good (es.foldl (fun acc e => lastN 49 acc ++ [e]) l) := by
  induction es with
  | nil => intro l; rfl
  | cons e es ih =>
    intro l
    simp only [iterStore, List.foldl_cons]
    exact ih (lastN 49 l ++ [e])

/-- Counterexample to C6 as stated: a Memory Writer call on a corrupt file
does not treat the log as empty and overwrite the file — the write is skipped
and the file is left as it was. -/
theorem memory_log_bound_cex :
    store_memory FileState.corrupt entryGen = FileState.corrupt
    ∧ store_memory FileState.corrupt entryGen ≠ FileState.good [entryGen] := by
  decide

/-- Claim C6 (amended): a Memory Writer call on an absent file or a readable
log truncates to the last 49 entries, appends the new one and overwrites the
file, so the written log holds at most 50 entries; a corrupt file skips the
write and is left unchanged; and after N ≥ 50 completed non-memory-hit runs
over a readable log the file holds exactly the 50 most recently appended
entries, oldest-first. -/
theorem memory_log_bound_amended (l l0 : List MemoryEntry) (e : MemoryEntry)
    (es : List MemoryEntry) :
    store_memory (.good l) e = .good (lastN 49 l ++ [e])
    ∧ (lastN 49 l ++ [e]).length ≤ 50
    ∧ store_memory .absent e = .good [e]
    ∧ store_memory .corrupt e = .corrupt
    ∧ (50 ≤ es.length → iterStore (.good l0) es = .good (lastN 50 es)) := by
  refine ⟨rfl, ?_, rfl, rfl, ?_⟩
  · have := lastN_length_le 49 l
    simp only [List.length_append, List.length_cons, List.length_nil]
    omega
  · intro h50
    have hne : es ≠ [] := by
      intro hc
      rw [hc] at h50
      simp at h50
    rw [iterStore_good es l0, foldGood_closed es l0 hne,
      lastN_append_of_le 50 (lastN 49 l0) es (by omega)]

/-- Witness for the amended C6 at 50 concrete writes starting from an empty log. -/
theorem memory_log_bound_amended_witness :
    iterStore (.good []) (List.replicate 50 entryGen)
      = .good (lastN 50 (List.replicate 50 entryGen)) :=
  (memory_log_bound_amended [] [] entryGen (List.replicate 50 entryGen)).2.2.2.2 (by simp)

/-! Claim C3: the relevance ranker. -/

theorem keyGE_refl (k : Nat × String) : keyGE k k = true := by
  simp [keyGE]

theorem keyGE_trans (a b c : Nat × String)
    (hab : keyGE a b = true) (hbc : keyGE b c = true) : keyGE a c = true := by
  simp only [keyGE, decide_eq_true_eq] at hab hbc ⊢
  rcases hab with h1 | ⟨h1, h2⟩
  · rcases hbc with g1 | ⟨g1, g2⟩
    · exact Or.inl (by omega)
    · exact Or.inl (by omega)
  · rcases hbc with g1 | ⟨g1, g2⟩
    · exact Or.inl (by omega)
    · exact Or.inr ⟨by omega, le_trans g2 h2⟩

theorem keyGE_total (a b : Nat × String) : keyGE a b = true ∨ keyGE b a = true := by
  simp only [keyGE, decide_eq_true_eq]
  rcases Nat.lt_trichotomy a.1 b.1 with h | h | h
  · exact Or.inr (Or.inl h)
  · rcases le_total a.2 b.2 with h2 | h2
    · exact Or.inr (Or.inr ⟨h, h2⟩)
    · exact Or.inl (Or.inr ⟨h.symm, h2⟩)
  · exact Or.inl (Or.inl h)

/-- Claim C3: the relevance ranker returns a permutation of its input that is
ordered by descending (score, timestamp-string) key — the score being the
additive weighted field-match count embodied in `calculate_relevance` — and
is stable: for every key value, the hits carrying that key appear in the
output in exactly their input (dedup) order. Being a pure function of its
input, repeated calls yield the identical ordering. -/
theorem ranker_correct (hits : List Hit) (terms : List String) :
    (sort_by_relevance hits terms).Perm hits
    ∧ (sort_by_relevance hits terms).Pairwise
        (fun x y => keyGE (sortKey terms x) (sortKey terms y) = true)
    ∧ ∀ k : Nat × String,
        (sort_by_relevance hits terms).filter (fun h => decide (sortKey terms h = k))
          = hits.filter (fun h => decide (sortKey terms h = k)) := by
  have htrans : ∀ a b c : Hit,
      keyGE (sortKey terms a) (sortKey terms b) → keyGE (sortKey terms b) (sortKey terms c) →
      keyGE (sortKey terms a) (sortKey terms c) :=
    fun a b c hab hbc => keyGE_trans _ _ _ hab hbc
  have htotal : ∀ a b : Hit,
      keyGE (sortKey terms a) (sortKey terms b) || keyGE (sortKey terms b) (sortKey terms a) := by
    intro a b
    rcases keyGE_total (sortKey terms a) (sortKey terms b) with h | h <;> simp [h]
  refine ⟨?_, ?_, ?_⟩
  · exact List.mergeSort_perm hits _
  · exact List.sorted_mergeSort htrans htotal hits
  · intro k
    have hmem : ∀ a ∈ hits.filter (fun h => decide (sortKey terms h = k)),
        sortKey terms a = k := by
      intro a ha
      exact of_decide_eq_true (List.mem_filter.mp ha).2
    have hpw : (hits.filter (fun h => decide (sortKey terms h = k))).Pairwise
        (fun x y => keyGE (sortKey terms x) (sortKey terms y) = true) := by
      apply List.pairwise_of_forall_mem_list
      intro a ha b hb
      rw [hmem a ha, hmem b hb]
      exact keyGE_refl k
    have hsubm : List.Sublist (hits.filter (fun h => decide (sortKey terms h = k)))
        (sort_by_relevance hits terms) :=
      List.sublist_mergeSort htrans htotal hpw (List.filter_sublist hits)
    have hfil : (hits.filter (fun h => decide (sortKey terms h = k))).filter
        (fun h => decide (sortKey terms h = k))
        = hits.filter (fun h => decide (sortKey terms h = k)) :=
      List.filter_eq_self.mpr (fun a ha => (List.mem_filter.mp ha).2)
    have h2 : List.Sublist (hits.filter (fun h => decide (sortKey terms h = k)))
        ((sort_by_relevance hits terms).filter (fun h => decide (sortKey terms h = k))) := by
      rw [← hfil]
      exact hsubm.filter _
    have hperm : List.Perm
        ((sort_by_relevance hits terms).filter (fun h => decide (sortKey terms h = k)))
        (hits.filter (fun h => decide (sortKey terms h = k))) :=
      (List.mergeSort_perm hits _).filter _
    exact (h2.eq_of_length hperm.length_eq.symm).symm

/-! Claim C2: the stage-3 merge deduplicates by id, first occurrence wins. -/

theorem collectHits_cons (x : Hit) (xs : List Hit) (st : List Hit × List String) :
    collectHits (x :: xs) st = collectHits xs (dedupInsert st x) := rfl

theorem collectHits_append (a b : List Hit) (st : List Hit × List String) :
    collectHits (a ++ b) st = collectHits b (collectHits a st) := by
  simp [collectHits, List.foldl_append]

theorem searchLoop_all_succeed (f : String → Option (List Hit)) :
    ∀ (terms : List String) (st : List Hit × List String),
      (∀ t ∈ terms, (f t).isSome = true) →
      searchLoop f terms st = (some (collectHits (termInputs f terms) st).1, terms) := by
  intro terms
  induction terms with
  | nil => intro st _; rfl
  | cons t rest ih =>
    intro st h
    rcases Option.isSome_iff_exists.mp (h t (List.mem_cons_self t rest)) with ⟨hits, hft⟩
    have hinp : termInputs f (t :: rest) = hits ++ termInputs f rest := by
      simp [termInputs, hft]
    rw [hinp, collectHits_append]
    have ih2 := ih (collectHits hits st) (fun u hu => h u (List.mem_cons_of_mem t hu))
    simp only [searchLoop, hft, ih2]

theorem collectHits_seen_eq (l : List Hit) :
    ∀ st : List Hit × List String, st.2 = st.1.map Hit.objectID →
      (collectHits l st).2 = (collectHits l st).1.map Hit.objectID := by
  induction l with
  | nil => intro st h; exact h
  | cons x xs ih =>
    intro st h
    rw [collectHits_cons]
    apply ih
    unfold dedupInsert
    by_cases hc : x.objectID ≠ "" ∧ x.objectID ∉ st.2
    · rw [if_pos hc]
      simp [h]
    · rw [if_neg hc]
      exact h

theorem collectHits_seen_nodup (l : List Hit) :
    ∀ st : List Hit × List String, st.2.Nodup → (collectHits l st).2.Nodup := by
  induction l with
  | nil => intro st h; exact h
  | cons x xs ih =>
    intro st hnd
    rw [collectHits_cons]
    apply ih
    unfold dedupInsert
    by_cases hc : x.objectID ≠ "" ∧ x.objectID ∉ st.2
    · rw [if_pos hc]
      simp [List.nodup_append, hnd, hc.2]
    · rw [if_neg hc]
      exact hnd

theorem collectHits_first (l : List Hit) :
    ∀ st : List Hit × List String, ∀ h ∈ (collectHits l st).1,
      h ∈ st.1 ∨ (h.objectID ≠ "" ∧ h.objectID ∉ st.2
        ∧ ∃ l1 l2, l = l1 ++ h :: l2 ∧ ∀ g ∈ l1, g.objectID ≠ h.objectID) := by
  induction l with
  | nil => intro st h hmem; exact Or.inl hmem
  | cons x xs ih =>
    intro st h hmem
    rw [collectHits_cons] at hmem
    rcases ih (dedupInsert st x) h hmem with hin | ⟨hne, hnotin, l1, l2, heq, hall⟩
    · by_cases hc : x.objectID ≠ "" ∧ x.objectID ∉ st.2
      · rw [dedupInsert, if_pos hc] at hin
        rcases List.mem_append.mp hin with h1 | h2
        · exact Or.inl h1
        · have hx : h = x := by simpa using h2
          subst hx
          exact Or.inr ⟨hc.1, hc.2, [], xs, rfl, fun g hg => absurd hg (List.not_mem_nil g)⟩
      · rw [dedupInsert, if_neg hc] at hin
        exact Or.inl hin
    · by_cases hc : x.objectID ≠ "" ∧ x.objectID ∉ st.2
      · rw [dedupInsert, if_pos hc] at hnotin
        have hn1 : h.objectID ∉ st.2 := fun hh => hnotin (List.mem_append.mpr (Or.inl hh))
        have hnx : h.objectID ≠ x.objectID := by
          intro hh
          exact hnotin (List.mem_append.mpr (Or.inr (by simp [hh])))
        refine Or.inr ⟨hne, hn1, x :: l1, l2, by rw [heq, List.cons_append], ?_⟩
        intro g hg
        rcases List.mem_cons.mp hg with rfl | hg2
        · exact fun hh => hnx hh.symm
        · exact hall g hg2
      · rw [dedupInsert, if_neg hc] at hnotin
        refine Or.inr ⟨hne, hnotin, x :: l1, l2, by rw [heq, List.cons_append], ?_⟩
        intro g hg
        rcases List.mem_cons.mp hg with rfl | hg2
        · rcases not_and_or.mp hc with h1 | h2
          · have hgid : g.objectID = "" := not_not.mp h1
            rw [hgid]
            exact fun hh => hne hh.symm
          · have hg2s : g.objectID ∈ st.2 := not_not.mp h2
            exact fun hh => hnotin (hh ▸ hg2s)
        · exact hall g hg2

/-- Claim C2: when every term query succeeds, stage 3 issues exactly one
query per term in order, and the merged hit list — `collectHits` over the
concatenated per-term hit lists — contains each non-empty `objectID` at most
once, the surviving copy being the hit at the first position (earliest term,
earliest position within it) carrying that id. -/
theorem dedup_invariant (terms : List String) (f : String → Option (List Hit))
    (hf : ∀ t ∈ terms, (f t).isSome = true) :
    searchLoop f terms ([], [])
      = (some (collectHits (termInputs f terms) ([], [])).1, terms)
    ∧ ((collectHits (termInputs f terms) ([], [])).1.map Hit.objectID).Nodup
    ∧ ∀ h ∈ (collectHits (termInputs f terms) ([], [])).1,
        h.objectID ≠ ""
        ∧ ∃ l1 l2, termInputs f terms = l1 ++ h :: l2
            ∧ ∀ g ∈ l1, g.objectID ≠ h.objectID := by
  refine ⟨searchLoop_all_succeed f terms ([], []) hf, ?_, ?_⟩
  · have hinv := collectHits_seen_eq (termInputs f terms) ([], []) rfl
    have hnd := collectHits_seen_nodup (termInputs f terms) ([], []) List.nodup_nil
    rw [hinv] at hnd
    exact hnd
  · intro h hmem
    rcases collectHits_first (termInputs f terms) ([], []) h hmem with hin | ⟨hne, _, l1, l2, heq, hall⟩
    · exact absurd hin (List.not_mem_nil h)
    · exact ⟨hne, l1, l2, heq, hall⟩

/-- Witness for C2: the overlapping example from the spec — hit A returned for both
terms, hit B only for the second. -/
theorem dedup_invariant_witness :
    searchLoop fEx ["sleep", "work"] ([], [])
      = (some (collectHits (termInputs fEx ["sleep", "work"]) ([], [])).1, ["sleep", "work"])
    ∧ ((collectHits (termInputs fEx ["sleep", "work"]) ([], [])).1.map Hit.objectID).Nodup
    ∧ ∀ h ∈ (collectHits (termInputs fEx ["sleep", "work"]) ([], [])).1,
        h.objectID ≠ ""
        ∧ ∃ l1 l2, termInputs fEx ["sleep", "work"] = l1 ++ h :: l2
            ∧ ∀ g ∈ l1, g.objectID ≠ h.objectID :=
  dedup_invariant ["sleep", "work"] fEx
    (by
      intro t ht
      rcases List.mem_cons.mp ht with rfl | ht2
      · decide
      · rcases List.mem_cons.mp ht2 with rfl | ht3
        · decide
        · exact absurd ht3 (List.not_mem_nil t))

end Whispers
